import Mathlib

/-!
Verification of the real-time chat client (Remote Data Gateway, Session
Manager, Chat Synchronization Store) against its specification.

The embedding models the TypeScript source shallowly:
  * ISO-8601 timestamp strings (`created_at`, `updated_at`), which the
    backend orders lexicographically (equivalently chronologically), are
    modelled as `Nat` ordered by `≤`.
  * The Supabase backend is modelled as an in-memory database value plus a
    configuration/failure mode; `throw` becomes `Except.error`.
  * React `useState` setters become explicit state-passing; realtime
    subscription callbacks and fetch completions become events applied to
    the state by step functions.
-/

/-- JavaScript `haystack.includes(needle)` (substring containment). -/
def strIncludes (haystack needle : String) : Bool :=
  decide (needle.data <:+: haystack.data)

/-- JavaScript `s.toLowerCase()` on the ASCII data used by this app. -/
def strToLower (s : String) : String :=
  String.mk (s.data.map Char.toLower)

/-- JavaScript falsiness of `s.trim()`: the trimmed string is empty exactly
when every character of `s` is whitespace. -/
def jsTrimEmpty (s : String) : Bool :=
  s.data.all Char.isWhitespace

/-- A row of the `users` table (src/types/chat `User`). -/
structure User where
  id : String
  email : String
  display_name : String
  avatar_url : String := ""
  phone_number : Option String := none
  status : Option String := none
  created_at : Nat := 0
deriving DecidableEq, Repr

/-- A row of the `messages` table (src/types/chat `Message`). -/
structure Message where
  id : String
  chat_id : String
  sender_id : String
  content : String
  attachment_url : Option String := none
  attachment_type : Option String := none
  created_at : Nat
deriving DecidableEq, Repr

/-- A bare row of the `chats` table: exactly the columns `select('*')`
returns. `last_message` is not a column; it is derived client-side. -/
structure ChatRow where
  id : String
  name : Option String
  is_group : Bool := false
  type : String := ""
  created_at : Nat := 0
  updated_at : Nat := 0
  unread_count : Nat := 0
deriving DecidableEq, Repr

/-- The client-side `Chat` value: a chat row optionally carrying the
derived `last_message` preview. -/
structure Chat extends ChatRow where
  last_message : Option Message := none
deriving DecidableEq, Repr

/-- A chat value built from a bare re-fetched table row: no `last_message`
field is present on the row, so none is attached. -/
def chatOfRow (r : ChatRow) : Chat :=
  { toChatRow := r, last_message := none }

/-- A row of the `chat_members` table. -/
structure ChatMember where
  user_id : String
  chat_id : String
deriving DecidableEq, Repr

/-- The remote database the Supabase client queries. -/
structure DB where
  users : List User := []
  chat_members : List ChatMember := []
  chats : List ChatRow := []
  messages : List Message := []
deriving Repr

/-- `from('messages').select('*').eq('chat_id', chatId).order('created_at',
ascending: true)`. -/
def messagesAsc (db : DB) (chatId : String) : List Message :=
  (db.messages.filter (fun m => decide (m.chat_id = chatId))).mergeSort
    (fun a b => decide (a.created_at ≤ b.created_at))

/-- `from('messages').select('*').eq('chat_id', chatId).order('created_at',
ascending: false)`. -/
def messagesDesc (db : DB) (chatId : String) : List Message :=
  (db.messages.filter (fun m => decide (m.chat_id = chatId))).mergeSort
    (fun a b => decide (b.created_at ≤ a.created_at))

/-- The `.limit(1).single()` last-message lookup: the callers read only
`data`, which is the most recent message or null when the chat has no
messages (the no-row error is discarded by `lastMessageData || undefined`). -/
def lastMessageFor (db : DB) (chatId : String) : Option Message :=
  (messagesDesc db chatId).head?

/-- Errors a gateway call can surface: the fail-fast "Supabase client is
not initialized" condition, or an error returned by the configured
backend. -/
inductive GatewayError where
  | notConfigured
  | backend (msg : String)
deriving DecidableEq, Repr

/-- The backend as seen by one gateway call: the client was never created
(missing credentials), the client exists but the remote call errors, or
the client exists and queries run against the database `db`. -/
inductive Backend where
  | unconfigured
  | failing (msg : String)
  | live (db : DB)

/-- A file passed to `sendChatMessage`: its name and its declared MIME
type (`File.name`, `File.type`). -/
structure Attachment where
  name : String
  type : String
deriving DecidableEq, Repr

/-- `attachment.name.split('.').pop()`: the final dot-separated component
of the file name. -/
def fileExtOf (name : String) : String :=
  ((name.splitOn ".").getLast?).getD ""

/-- The MIME classification inside `sendChatMessage`:
`type.includes('image')` wins, then `type.includes('video')`, else
`'document'`. -/
def classifyAttachmentType (mime : String) : String :=
  if strIncludes mime "image" then "image"
  else if strIncludes mime "video" then "video"
  else "document"

/-- `storage.from('attachments').getPublicUrl(filePath)`: the public URL is
a function of the uploaded path. -/
def publicUrlFor (filePath : String) : String :=
  "attachments/" ++ filePath

namespace Gateway

-- The strict gateway variant: every function throws when the client is
-- not initialized, and backend errors from reads are re-thrown to the
-- caller.
namespace Strict

/-- `fetchUsers`: `select('*')` from `users`; throws when unconfigured or
on a backend error. -/
def fetchUsers (b : Backend) : Except GatewayError (List User) :=
  match b with
  | .unconfigured => .error .notConfigured
  | .failing msg => .error (.backend msg)
  | .live db => .ok db.users

/-- `fetchUserChats(userId)`: memberships for `userId`, then the chats
whose id is in that set ordered by `updated_at` descending, each with its
most recent message attached as `last_message`. -/
def fetchUserChats (b : Backend) (userId : String) :
    Except GatewayError (List Chat) :=
  match b with
  | .unconfigured => .error .notConfigured
  | .failing msg => .error (.backend msg)
  | .live db =>
    let chatMembers := db.chat_members.filter (fun mb => decide (mb.user_id = userId))
    if chatMembers = [] then .ok []
    else
      let chatIds := chatMembers.map (fun mb => mb.chat_id)
      let chatsData := (db.chats.filter (fun c => c.id ∈ chatIds)).mergeSort
        (fun a b => decide (b.updated_at ≤ a.updated_at))
      .ok (chatsData.map (fun row =>
        { toChatRow := row, last_message := lastMessageFor db row.id }))

/-- `fetchChatMessages(chatId)`: messages of the chat ordered by
`created_at` ascending. -/
def fetchChatMessages (b : Backend) (chatId : String) :
    Except GatewayError (List Message) :=
  match b with
  | .unconfigured => .error .notConfigured
  | .failing msg => .error (.backend msg)
  | .live db => .ok (messagesAsc db chatId)

/-- `sendChatMessage(chatId, userId, content, attachment?)`: optionally
uploads the attachment under `userId/now.ext`, derives its public URL and
MIME classification, and inserts the message row (`created_at := now`,
server-assigned id `msgId`). -/
def sendChatMessage (b : Backend) (chatId userId content : String)
    (attachment : Option Attachment) (msgId : String) (now : Nat) :
    Except GatewayError Message :=
  match b with
  | .unconfigured => .error .notConfigured
  | .failing msg => .error (.backend msg)
  | .live _ =>
    let att := attachment.map (fun a =>
      let fileName := toString now ++ "." ++ fileExtOf a.name
      let filePath := userId ++ "/" ++ fileName
      (publicUrlFor filePath, classifyAttachmentType a.type))
    .ok { id := msgId, chat_id := chatId, sender_id := userId,
          content := content,
          attachment_url := att.map (fun p => p.1),
          attachment_type := att.map (fun p => p.2),
          created_at := now }

end Strict

-- The lenient gateway variant: read functions log and return an empty
-- list both when the client is not initialized and when the backend
-- errors; only `sendChatMessage` still throws.
namespace Lenient

/-- `fetchUsers`: warns and returns `[]` when unconfigured; catches a
backend error and returns `[]`. -/
def fetchUsers (b : Backend) : Except GatewayError (List User) :=
  match b with
  | .unconfigured => .ok []
  | .failing _ => .ok []
  | .live db => .ok db.users

/-- `fetchUserChats(userId)`: same two-step query as the strict variant,
but unconfigured and backend-error paths return `[]`. -/
def fetchUserChats (b : Backend) (userId : String) :
    Except GatewayError (List Chat) :=
  match b with
  | .unconfigured => .ok []
  | .failing _ => .ok []
  | .live db =>
    match Strict.fetchUserChats (.live db) userId with
    | .ok l => .ok l
    | .error _ => .ok []

/-- `fetchChatMessages(chatId)`: unconfigured and backend-error paths
return `[]`. -/
def fetchChatMessages (b : Backend) (chatId : String) :
    Except GatewayError (List Message) :=
  match b with
  | .unconfigured => .ok []
  | .failing _ => .ok []
  | .live db => .ok (messagesAsc db chatId)

/-- `sendChatMessage`: identical body to the strict variant (the lenient
module duplicates it verbatim, including the throw on a missing client). -/
def sendChatMessage (b : Backend) (chatId userId content : String)
    (attachment : Option Attachment) (msgId : String) (now : Nat) :
    Except GatewayError Message :=
  match b with
  | .unconfigured => .error .notConfigured
  | .failing msg => .error (.backend msg)
  | .live db => Strict.sendChatMessage (.live db) chatId userId content attachment msgId now

end Lenient

end Gateway

namespace ChatsStore

/-- `filterChats` from `ChatsProvider`: empty/whitespace-only query resets
to the full list; otherwise case-insensitive substring match of the query
against `chat.name` (a chat with no name never matches, since
`chat.name?.toLowerCase()` is `undefined`). A pure function of the current
chat list and the query; it performs no backend call. -/
def filterChats (chats : List Chat) (query : String) : List Chat :=
  if jsTrimEmpty query then chats
  else
    chats.filter (fun c =>
      match c.name with
      | none => false
      | some n => strIncludes (strToLower n) (strToLower query))

/-- The merge used by the chat-table subscription handler for both
`setChats` and `setFilteredChats`: replace the entry with the matching id
when one exists (`prev.some(chat => chat.id === updatedChat.id)`),
otherwise append the chat. -/
def mergeById (l : List Chat) (c : Chat) : List Chat :=
  if ∃ x ∈ l, x.id = c.id then
    l.map (fun x => if x.id = c.id then c else x)
  else l ++ [c]

/-- An update applied to the chat list: a fetch completion (`setChats`
replaces the list wholesale with the fetched chats) or a chat-table push
event (the re-fetched chat is merged by id). -/
inductive ChatEvent where
  | fetch (chats : List Chat)
  | push (c : Chat)
deriving DecidableEq, Repr

/-- Apply one chat-list update. -/
def applyChatEvent (st : List Chat) : ChatEvent → List Chat
  | .fetch l => l
  | .push c => mergeById st c

/-- Apply a sequence of chat-list updates in order. -/
def applyChatEvents (st : List Chat) (es : List ChatEvent) : List Chat :=
  es.foldl applyChatEvent st

/-- The data a single event carries for the chat id `i`, if any. -/
def singleWrite (e : ChatEvent) (i : String) : Option Chat :=
  match e with
  | .push c => if c.id = i then some c else none
  | .fetch l => l.find? (fun x => decide (x.id = i))

/-- The data of the most recently applied event that mentions the chat id
`i` (later events take precedence). -/
def lastWrite : List ChatEvent → String → Option Chat
  | [], _ => none
  | e :: es, i =>
    match lastWrite es i with
    | some c => some c
    | none => singleWrite e i

/-- Well-formedness of an event: a fetch completion, coming from a
database query keyed by chat id, carries no duplicate chat ids. -/
def eventOk : ChatEvent → Bool
  | .fetch l => decide ((l.map (fun c => c.id)).Nodup)
  | .push _ => true

/-- The per-chat message subscription handler applied to a sequence of
insert events: each event payload is appended to the in-memory message
list directly (`setMessages(prev => [...prev, payload.new])`), with no
re-sort. -/
def applyMessagePushes (l : List Message) (ps : List Message) : List Message :=
  ps.foldl (fun acc m => acc ++ [m]) l

/-- The chat-table subscription handler for a push event carrying chat id
`pushedId`: re-verify membership with a single-row `chat_members` lookup,
re-fetch the single bare chat row, and merge it into both the full and the
filtered lists by id. -/
def handleChatPush (db : DB) (userId : String) (chats filtered : List Chat)
    (pushedId : String) : List Chat × List Chat :=
  match db.chat_members.find?
      (fun x => decide (x.chat_id = pushedId) && decide (x.user_id = userId)) with
  | none => (chats, filtered)
  | some _ =>
    match db.chats.find? (fun r => decide (r.id = pushedId)) with
    | none => (chats, filtered)
    | some row => (mergeById chats (chatOfRow row), mergeById filtered (chatOfRow row))

/-- The message-view slice of the provider state: the selected chat and
the in-memory message list. -/
structure MsgView where
  currentChat : Option Chat
  messages : List Message
deriving DecidableEq, Repr

/-- Events observed by the message view on the single-threaded event loop:
`setCurrentChat` changes the selection, and the completion of a message
fetch that was started for `chatId` delivers that chat's messages. -/
inductive ViewEvent where
  | select (c : Option Chat)
  | fetchResolve (chatId : String) (msgs : List Message)
deriving DecidableEq, Repr

/-- One step of the message view. The fetch-completion handler runs
`setMessages(data)` unconditionally: it does not check whether the chat it
was started for is still the selected chat. -/
def viewStep (st : MsgView) : ViewEvent → MsgView
  | .select c => { st with currentChat := c }
  | .fetchResolve _ msgs => { st with messages := msgs }

/-- Run the message view over a sequence of events. -/
def runView (st : MsgView) (es : List ViewEvent) : MsgView :=
  es.foldl viewStep st

/-- The reactive state owned by `ChatsProvider`. -/
structure StoreState where
  chats : List Chat := []
  filteredChats : List Chat := []
  currentChat : Option Chat := none
  messages : List Message := []
  users : List User := []
deriving DecidableEq, Repr

/-- `sendMessage(content, attachment?)` of the Supabase `ChatsProvider`:
returns immediately when there is no selected chat or no authenticated
user; otherwise it inserts the message remotely (the local state is not
modified — the message is expected back via the realtime subscription) and
on a backend error it only shows a failure toast. The result pairs the
store state with whether a failure was reported to the user. -/
def sendMessage (st : StoreState) (user : Option User) (_content : String)
    (_attachment : Option Unit) (sendOk : Bool) : StoreState × Bool :=
  match st.currentChat, user with
  | none, _ => (st, false)
  | some _, none => (st, false)
  | some _, some _ => if sendOk then (st, false) else (st, true)

end ChatsStore

namespace Auth

/-- A Supabase auth session as observed by `AuthProvider`. -/
structure Session where
  access_token : String
  refresh_token : String
  user : User
deriving DecidableEq, Repr

/-- The state owned by `AuthProvider`. -/
structure AuthState where
  session : Option Session
  user : Option User
  loading : Bool
deriving DecidableEq, Repr

/-- The `onAuthStateChange` callback body:
`setSession(session); setUser(session?.user ?? null); setLoading(false)`. -/
def onAuthStateChange (_st : AuthState) (s : Option Session) : AuthState :=
  { session := s, user := s.map (fun x => x.user), loading := false }

end Auth

/-- The two chats of the spec's `filterChats` test vector (rows from the
mock data set). -/
def periskopeTeamChat : Chat :=
  { id := "2", name := some "Periskope Team Chat", is_group := true,
    type := "internal", created_at := 0, updated_at := 0, unread_count := 0 }

def testDemo17Chat : Chat :=
  { id := "4", name := some "Test Demo17", is_group := false,
    type := "content", created_at := 0, updated_at := 0, unread_count := 0 }

/-- The "Periskope Team Chat" row after a later update bumped it. -/
def periskopeUpdated : Chat :=
  { periskopeTeamChat with updated_at := 10, unread_count := 1 }

/-- A concrete chat-list update sequence: one fetch completion followed by
one push event for an already-present chat. -/
def chatEventsDemo : List ChatsStore.ChatEvent :=
  [ChatsStore.ChatEvent.fetch [periskopeTeamChat, testDemo17Chat],
   ChatsStore.ChatEvent.push periskopeUpdated]

/-- A concrete message of the "Periskope Team Chat" chat. -/
def demoMessage : Message :=
  { id := "m1", chat_id := "2", sender_id := "1", content := "hello",
    created_at := 3 }

/-- The "Periskope Team Chat" entry carrying a `last_message` preview. -/
def periskopeWithPreview : Chat :=
  { periskopeTeamChat with last_message := some demoMessage }

/-- A concrete remote database in which user "1" is a member of chat "2". -/
def demoDB : DB :=
  { users := [], chat_members := [{ user_id := "1", chat_id := "2" }],
    chats := [periskopeTeamChat.toChatRow], messages := [] }

/-- A message of chat "2" created at time 5. -/
def msgAt5 : Message :=
  { id := "m5", chat_id := "2", sender_id := "1", content := "later",
    created_at := 5 }

/-- A message of chat "2" created at time 3: an insert event whose payload
carries an earlier `created_at` than an already-listed message (e.g. sent
from a client with a skewed clock). -/
def msgAt3 : Message :=
  { id := "m3", chat_id := "2", sender_id := "2", content := "early",
    created_at := 3 }

/-- A message of chat "2" created at time 6. -/
def msgAt6 : Message :=
  { id := "m6", chat_id := "2", sender_id := "2", content := "newest",
    created_at := 6 }

/-- A database whose `messages` table holds only `msgAt5`. -/
def dbOneMessage : DB :=
  { messages := [msgAt5] }

/-- The interleaving in which chat "2" is selected, the user switches to
chat "4", chat "4"'s fetch resolves, and then chat "2"'s slow fetch
resolves last. -/
def raceEvents : List ChatsStore.ViewEvent :=
  [ChatsStore.ViewEvent.select (some periskopeTeamChat),
   ChatsStore.ViewEvent.select (some testDemo17Chat),
   ChatsStore.ViewEvent.fetchResolve "4" [],
   ChatsStore.ViewEvent.fetchResolve "2" [demoMessage]]

/-- C7: `filterChats` is a case-insensitive substring match of the query
against each chat's name with no backend call (it is a pure function of
the chat list and query); an empty or whitespace-only query resets the
filtered list to the full chat list regardless of prior filter state; and
`filterChats "team"` on a list containing "Periskope Team Chat" and
"Test Demo17" returns only "Periskope Team Chat". -/
theorem filterChats_spec :
    (∀ (chats : List Chat) (q : String), jsTrimEmpty q = true →
      ChatsStore.filterChats chats q = chats) ∧
    (∀ (chats : List Chat) (q : String) (c : Chat), jsTrimEmpty q = false →
      (c ∈ ChatsStore.filterChats chats q ↔
        c ∈ chats ∧ ∃ n, c.name = some n ∧
          strIncludes (strToLower n) (strToLower q) = true)) ∧
    ChatsStore.filterChats [periskopeTeamChat, testDemo17Chat] "team" =
      [periskopeTeamChat] := by
  refine ⟨?_, ?_, by decide⟩
  · intro chats q hq
    simp [ChatsStore.filterChats, hq]
  · intro chats q c hq
    simp only [ChatsStore.filterChats, hq, Bool.false_eq_true, if_false,
      List.mem_filter]
    constructor
    · rintro ⟨hc, hm⟩
      refine ⟨hc, ?_⟩
      cases hn : c.name with
      | none => simp [hn] at hm
      | some n => exact ⟨n, rfl, by simpa [hn] using hm⟩
    · rintro ⟨hc, n, hn, hmatch⟩
      exact ⟨hc, by simp [hn, hmatch]⟩

/-- Witness for `filterChats_spec`: the whitespace-reset clause at a
concrete list and query. -/
theorem filterChats_spec_witness :
    ChatsStore.filterChats [periskopeTeamChat, testDemo17Chat] "   " =
      [periskopeTeamChat, testDemo17Chat] :=
  filterChats_spec.1 [periskopeTeamChat, testDemo17Chat] "   " (by decide)

/-- C8: with no selected chat or no authenticated user, the store's
`sendMessage` is a no-op: it returns the state unchanged (chat list,
filtered list, message list, user directory all intact) and reports no
failure to the user. -/
theorem sendMessage_noop_guard (st : ChatsStore.StoreState) (user : Option User)
    (content : String) (attachment : Option Unit) (sendOk : Bool)
    (h : st.currentChat = none ∨ user = none) :
    ChatsStore.sendMessage st user content attachment sendOk = (st, false) := by
  rcases h with h | h
  · simp [ChatsStore.sendMessage, h]
  · subst h
    cases hc : st.currentChat <;> simp [ChatsStore.sendMessage, hc]

/-- Witness for `sendMessage_noop_guard` at a concrete state with no
selected chat. -/
theorem sendMessage_noop_guard_witness :
    ChatsStore.sendMessage
        { chats := [periskopeTeamChat], filteredChats := [periskopeTeamChat],
          currentChat := none, messages := [], users := [] }
        (some { id := "1", email := "u@x", display_name := "U" })
        "hello" none true =
      ({ chats := [periskopeTeamChat], filteredChats := [periskopeTeamChat],
         currentChat := none, messages := [], users := [] }, false) :=
  sendMessage_noop_guard _ _ _ _ _ (Or.inl rfl)

/-- C4 counterexample: the lenient gateway's `fetchUsers`, with the client
never initialized, returns the empty list successfully instead of failing
with a distinguishable NotConfigured condition; and the strict gateway's
`fetchUsers`, when the configured backend errors, propagates the error
instead of returning an empty sequence. -/
theorem gateway_error_claim_counterexample :
    Gateway.Lenient.fetchUsers Backend.unconfigured =
      Except.ok ([] : List User) ∧
    Gateway.Strict.fetchUsers (Backend.failing "network error") =
      Except.error (GatewayError.backend "network error") :=
  ⟨rfl, rfl⟩

/-- C4 (amended): in the strict gateway variant every function fails fast
with NotConfigured when the client was never initialized, but its reads
propagate backend errors; in the lenient gateway variant the reads return
an empty sequence both when the client was never initialized and when the
configured backend errors (after logging), and only `sendChatMessage`
fails fast with NotConfigured. No variant attempts a network call when
unconfigured. -/
theorem gateway_error_policy :
    (∀ (userId chatId content msgId : String) (a : Option Attachment) (now : Nat),
      Gateway.Strict.fetchUsers .unconfigured = .error .notConfigured ∧
      Gateway.Strict.fetchUserChats .unconfigured userId = .error .notConfigured ∧
      Gateway.Strict.fetchChatMessages .unconfigured chatId = .error .notConfigured ∧
      Gateway.Strict.sendChatMessage .unconfigured chatId userId content a msgId now =
        .error .notConfigured ∧
      Gateway.Lenient.sendChatMessage .unconfigured chatId userId content a msgId now =
        .error .notConfigured ∧
      Gateway.Lenient.fetchUsers .unconfigured = .ok [] ∧
      Gateway.Lenient.fetchUserChats .unconfigured userId = .ok [] ∧
      Gateway.Lenient.fetchChatMessages .unconfigured chatId = .ok []) ∧
    (∀ (msg userId chatId : String),
      Gateway.Lenient.fetchUsers (.failing msg) = .ok [] ∧
      Gateway.Lenient.fetchUserChats (.failing msg) userId = .ok [] ∧
      Gateway.Lenient.fetchChatMessages (.failing msg) chatId = .ok [] ∧
      Gateway.Strict.fetchUsers (.failing msg) = .error (.backend msg) ∧
      Gateway.Strict.fetchUserChats (.failing msg) userId = .error (.backend msg) ∧
      Gateway.Strict.fetchChatMessages (.failing msg) chatId = .error (.backend msg)) := by
  exact ⟨fun _ _ _ _ _ _ => ⟨rfl, rfl, rfl, rfl, rfl, rfl, rfl, rfl⟩,
    fun _ _ _ => ⟨rfl, rfl, rfl, rfl, rfl, rfl⟩⟩

/-- C6: a `sendChatMessage` call with an attachment yields a message whose
`attachment_type` is the MIME classification: "image" when the declared
type contains the substring "image", else "video" when it contains
"video", else "document"; and "image/png" classifies as "image". -/
theorem sendChatMessage_attachment_type :
    (∀ (db : DB) (chatId userId content : String) (a : Attachment)
        (msgId : String) (now : Nat),
      ∃ m, Gateway.Strict.sendChatMessage (.live db) chatId userId content
          (some a) msgId now = .ok m ∧
        m.attachment_type = some (classifyAttachmentType a.type)) ∧
    (∀ mime : String,
      ("image".data <:+: mime.data → classifyAttachmentType mime = "image") ∧
      (¬ "image".data <:+: mime.data → "video".data <:+: mime.data →
        classifyAttachmentType mime = "video") ∧
      (¬ "image".data <:+: mime.data → ¬ "video".data <:+: mime.data →
        classifyAttachmentType mime = "document")) ∧
    classifyAttachmentType "image/png" = "image" := by
  refine ⟨fun db chatId userId content a msgId now => ⟨_, rfl, rfl⟩,
    fun mime => ⟨?_, ?_, ?_⟩, by decide⟩
  · intro h
    simp [classifyAttachmentType, strIncludes, h]
  · intro h1 h2
    simp [classifyAttachmentType, strIncludes, h1, h2]
  · intro h1 h2
    simp [classifyAttachmentType, strIncludes, h1, h2]

/-- Witness for `sendChatMessage_attachment_type`: a declared MIME type of
"video/mp4" (which does not contain "image") classifies as "video". -/
theorem sendChatMessage_attachment_type_witness :
    classifyAttachmentType "video/mp4" = "video" :=
  (sendChatMessage_attachment_type.2.1 "video/mp4").2.1 (by decide) (by decide)

theorem mem_mergeById {l : List Chat} {p c : Chat}
    (h : c ∈ ChatsStore.mergeById l p) : c = p ∨ (c ∈ l ∧ c.id ≠ p.id) := by
  unfold ChatsStore.mergeById at h
  by_cases hex : ∃ x ∈ l, x.id = p.id
  · rw [if_pos hex] at h
    obtain ⟨x, hx, hxe⟩ := List.mem_map.1 h
    by_cases hxp : x.id = p.id
    · rw [if_pos hxp] at hxe
      exact Or.inl hxe.symm
    · rw [if_neg hxp] at hxe
      subst hxe
      exact Or.inr ⟨hx, hxp⟩
  · rw [if_neg hex] at h
    rcases List.mem_append.1 h with h | h
    · exact Or.inr ⟨h, fun he => hex ⟨c, h, he⟩⟩
    · exact Or.inl (by simpa using h)

theorem mergeById_entry_eq {l : List Chat} {p x : Chat}
    (hx : x ∈ ChatsStore.mergeById l p) (hid : x.id = p.id) : x = p := by
  rcases mem_mergeById hx with h | ⟨_, hne⟩
  · exact h
  · exact absurd hid hne

theorem mergeById_ids_nodup {l : List Chat} (p : Chat)
    (h : (l.map (fun c => c.id)).Nodup) :
    ((ChatsStore.mergeById l p).map (fun c => c.id)).Nodup := by
  unfold ChatsStore.mergeById
  by_cases hex : ∃ x ∈ l, x.id = p.id
  · rw [if_pos hex]
    have hmap : (l.map (fun x => if x.id = p.id then p else x)).map (fun c => c.id) =
        l.map (fun c => c.id) := by
      rw [List.map_map]
      refine List.map_congr_left ?_
      intro a _
      by_cases hap : a.id = p.id
      · simp [hap]
      · simp [hap]
    rw [hmap]
    exact h
  · rw [if_neg hex, List.map_append]
    rw [List.nodup_append]
    refine ⟨h, by simp, ?_⟩
    intro a ha hb
    obtain ⟨x, hx, hxa⟩ := List.mem_map.1 ha
    have : a = p.id := by simpa using hb
    exact hex ⟨x, hx, by rw [hxa, this]⟩

theorem find?_id_of_nodup {l : List Chat} {c : Chat}
    (hn : (l.map (fun x => x.id)).Nodup) (hc : c ∈ l) :
    l.find? (fun x => decide (x.id = c.id)) = some c := by
  induction l with
  | nil => cases hc
  | cons a t ih =>
    have hn' : (∀ x ∈ t, ¬ x.id = a.id) ∧ (t.map (fun x => x.id)).Nodup := by
      simpa using hn
    rw [List.find?_cons]
    by_cases hac : a.id = c.id
    · have hca : a = c := by
        rcases List.mem_cons.1 hc with rfl | hct
        · rfl
        · exact absurd hac.symm (hn'.1 c hct)
      simp [hac, hca]
    · have hct : c ∈ t := by
        rcases List.mem_cons.1 hc with rfl | hct
        · exact absurd rfl hac
        · exact hct
      simp only [hac, decide_eq_true_eq]
      simpa using ih hn'.2 hct

theorem applyChatEvents_nodup (es : List ChatsStore.ChatEvent) :
    ∀ st : List Chat, (∀ e ∈ es, ChatsStore.eventOk e = true) →
    ((st.map (fun c => c.id)).Nodup) →
    (((ChatsStore.applyChatEvents st es).map (fun c => c.id)).Nodup) := by
  induction es with
  | nil => intro st _ h; exact h
  | cons e es ih =>
    intro st hok hst
    have hes : ∀ e' ∈ es, ChatsStore.eventOk e' = true :=
      fun e' he' => hok e' (List.mem_cons_of_mem _ he')
    show ((ChatsStore.applyChatEvents (ChatsStore.applyChatEvent st e) es).map
        (fun c => c.id)).Nodup
    cases e with
    | fetch l =>
      have hl : ((l.map (fun c => c.id)).Nodup) := by
        have := hok _ (List.mem_cons_self _ _)
        simpa [ChatsStore.eventOk] using this
      exact ih _ hes hl
    | push p => exact ih _ hes (mergeById_ids_nodup p hst)

theorem applyChatEvents_lastWrite (es : List ChatsStore.ChatEvent) :
    ∀ st : List Chat, (∀ e ∈ es, ChatsStore.eventOk e = true) →
    ∀ c ∈ ChatsStore.applyChatEvents st es,
      ChatsStore.lastWrite es c.id = some c ∨
      (ChatsStore.lastWrite es c.id = none ∧ c ∈ st) := by
  induction es with
  | nil =>
    intro st _ c hc
    exact Or.inr ⟨rfl, hc⟩
  | cons e es ih =>
    intro st hok c hc
    have hes : ∀ e' ∈ es, ChatsStore.eventOk e' = true :=
      fun e' he' => hok e' (List.mem_cons_of_mem _ he')
    have hc' : c ∈ ChatsStore.applyChatEvents (ChatsStore.applyChatEvent st e) es := hc
    rcases ih _ hes c hc' with hlast | ⟨hnone, hmem⟩
    · exact Or.inl (by simp [ChatsStore.lastWrite, hlast])
    · rw [show ChatsStore.lastWrite (e :: es) c.id = ChatsStore.singleWrite e c.id by
        simp [ChatsStore.lastWrite, hnone]]
      cases e with
      | fetch l =>
        have hl : ((l.map (fun x => x.id)).Nodup) := by
          have := hok _ (List.mem_cons_self _ _)
          simpa [ChatsStore.eventOk] using this
        have hcl : c ∈ l := hmem
        exact Or.inl (by simpa [ChatsStore.singleWrite] using find?_id_of_nodup hl hcl)
      | push p =>
        rcases mem_mergeById hmem with rfl | ⟨hst, hne⟩
        · exact Or.inl (by simp [ChatsStore.singleWrite])
        · refine Or.inr ⟨?_, hst⟩
          have hpc : ¬ p.id = c.id := fun h => hne h.symm
          simp [ChatsStore.singleWrite, hpc]

/-- C1: for every sequence of chat-table push events and fetch completions
applied to the initially empty chat list (push merge by id: replace when
present, append when new; fetch replaces the list wholesale), the
resulting list has no two chats with the same id, and each entry equals
the data carried by the most recently applied event for its id. -/
theorem chat_list_merge_invariant (es : List ChatsStore.ChatEvent)
    (hok : ∀ e ∈ es, ChatsStore.eventOk e = true) :
    (((ChatsStore.applyChatEvents [] es).map (fun c => c.id)).Nodup) ∧
    ∀ c ∈ ChatsStore.applyChatEvents [] es,
      ChatsStore.lastWrite es c.id = some c := by
  refine ⟨applyChatEvents_nodup es [] hok (by simp), ?_⟩
  intro c hc
  rcases applyChatEvents_lastWrite es [] hok c hc with h | ⟨_, hmem⟩
  · exact h
  · cases hmem

/-- Witness for `chat_list_merge_invariant` on a concrete fetch-then-push
sequence: the ids stay duplicate-free and the pushed chat's entry is the
pushed data. -/
theorem chat_list_merge_invariant_witness :
    (((ChatsStore.applyChatEvents [] chatEventsDemo).map (fun c => c.id)).Nodup) ∧
    ChatsStore.lastWrite chatEventsDemo periskopeUpdated.id = some periskopeUpdated :=
  ⟨(chat_list_merge_invariant chatEventsDemo (by decide)).1,
   (chat_list_merge_invariant chatEventsDemo (by decide)).2 periskopeUpdated (by decide)⟩

/-- C10: when a chat-table push event for chat id `pushedId` is merged
(membership verified, bare chat row re-fetched), the list entry for that
id in both the full and filtered lists is the bare row, which carries no
`last_message` — even when the previous entry had one. -/
theorem push_merge_drops_last_message
    (db : DB) (userId : String) (chats filtered : List Chat)
    (pushedId : String) (mb : ChatMember) (row : ChatRow) (c : Chat) (m : Message)
    (hmb : db.chat_members.find?
      (fun x => decide (x.chat_id = pushedId) && decide (x.user_id = userId)) = some mb)
    (hrow : db.chats.find? (fun r => decide (r.id = pushedId)) = some row)
    (hc : c ∈ chats) (hid : c.id = pushedId) (_hlm : c.last_message = some m) :
    (∃ x ∈ (ChatsStore.handleChatPush db userId chats filtered pushedId).1,
      x.id = pushedId) ∧
    (∀ x ∈ (ChatsStore.handleChatPush db userId chats filtered pushedId).1,
      x.id = pushedId → x.last_message = none) ∧
    (∀ x ∈ (ChatsStore.handleChatPush db userId chats filtered pushedId).2,
      x.id = pushedId → x.last_message = none) := by
  have hrowid : row.id = pushedId := by
    have := List.find?_some hrow
    simpa using this
  have hres : ChatsStore.handleChatPush db userId chats filtered pushedId =
      (ChatsStore.mergeById chats (chatOfRow row),
       ChatsStore.mergeById filtered (chatOfRow row)) := by
    simp [ChatsStore.handleChatPush, hmb, hrow]
  rw [hres]
  refine ⟨?_, ?_, ?_⟩
  · have hex : ∃ x ∈ chats, x.id = (chatOfRow row).id := ⟨c, hc, by
      simp [chatOfRow, hrowid, hid]⟩
    refine ⟨chatOfRow row, ?_, by simpa [chatOfRow] using hrowid⟩
    unfold ChatsStore.mergeById
    rw [if_pos hex]
    exact List.mem_map.2 ⟨c, hc, by simp [chatOfRow, hid, hrowid]⟩
  · intro x hx hxid
    have hxr : x = chatOfRow row :=
      mergeById_entry_eq hx (by simpa [chatOfRow, hrowid] using hxid)
    simp [hxr, chatOfRow]
  · intro x hx hxid
    have hxr : x = chatOfRow row :=
      mergeById_entry_eq hx (by simpa [chatOfRow, hrowid] using hxid)
    simp [hxr, chatOfRow]

/-- Witness for `push_merge_drops_last_message`: in `demoDB`, a push for
chat "2" replaces the previewing entry with the bare row. -/
theorem push_merge_drops_last_message_witness :
    (∃ x ∈ (ChatsStore.handleChatPush demoDB "1" [periskopeWithPreview]
        [periskopeWithPreview] "2").1, x.id = "2") ∧
    (∀ x ∈ (ChatsStore.handleChatPush demoDB "1" [periskopeWithPreview]
        [periskopeWithPreview] "2").1, x.id = "2" → x.last_message = none) ∧
    (∀ x ∈ (ChatsStore.handleChatPush demoDB "1" [periskopeWithPreview]
        [periskopeWithPreview] "2").2, x.id = "2" → x.last_message = none) :=
  push_merge_drops_last_message demoDB "1" [periskopeWithPreview]
    [periskopeWithPreview] "2" { user_id := "1", chat_id := "2" }
    periskopeTeamChat.toChatRow periskopeWithPreview demoMessage
    (by decide) (by decide) (by decide) (by decide) (by decide)

theorem messagesAsc_sorted (db : DB) (chatId : String) :
    (messagesAsc db chatId).Sorted
      (fun a b : Message => a.created_at ≤ b.created_at) := by
  have h := @List.sorted_mergeSort Message
    (fun a b => decide (a.created_at ≤ b.created_at))
    (fun a b c hab hbc => by
      simp only [decide_eq_true_eq] at hab hbc ⊢
      exact le_trans hab hbc)
    (fun a b => by
      simp only [Bool.or_eq_true, decide_eq_true_eq]
      exact le_total a.created_at b.created_at)
    (db.messages.filter (fun m => decide (m.chat_id = chatId)))
  exact h.imp (fun hab => by simpa using hab)

theorem messagesDesc_sorted (db : DB) (chatId : String) :
    (messagesDesc db chatId).Sorted
      (fun a b : Message => b.created_at ≤ a.created_at) := by
  have h := @List.sorted_mergeSort Message
    (fun a b => decide (b.created_at ≤ a.created_at))
    (fun a b c hab hbc => by
      simp only [decide_eq_true_eq] at hab hbc ⊢
      exact le_trans hbc hab)
    (fun a b => by
      simp only [Bool.or_eq_true, decide_eq_true_eq]
      exact le_total b.created_at a.created_at)
    (db.messages.filter (fun m => decide (m.chat_id = chatId)))
  exact h.imp (fun hab => by simpa using hab)

theorem applyMessagePushes_eq_append (ps : List Message) :
    ∀ l, ChatsStore.applyMessagePushes l ps = l ++ ps := by
  induction ps with
  | nil => intro l; simp [ChatsStore.applyMessagePushes]
  | cons p ps ih =>
    intro l
    have step : ChatsStore.applyMessagePushes l (p :: ps) =
        ChatsStore.applyMessagePushes (l ++ [p]) ps := by
      simp [ChatsStore.applyMessagePushes]
    rw [step, ih (l ++ [p])]
    simp

/-- C2 counterexample: with the message list fetched for chat "2" (the
single message created at time 5), one push-appended insert event whose
payload was created at time 3 leaves the store's message list out of
`created_at` order — the handler appends the payload without re-sorting. -/
theorem message_sort_claim_counterexample :
    ¬ (ChatsStore.applyMessagePushes (messagesAsc dbOneMessage "2") [msgAt3]).Sorted
        (fun a b : Message => a.created_at ≤ b.created_at) := by
  have hfetch : messagesAsc dbOneMessage "2" = [msgAt5] := by
    simp [messagesAsc, dbOneMessage, msgAt5]
  rw [hfetch, applyMessagePushes_eq_append]
  decide

/-- C2 (amended): the initial fetch for the selected chat is sorted by
`created_at` ascending, and it stays sorted under N push-appended insert
events provided the pushed payloads arrive in `created_at` order and none
is older than a fetched message; an insert event carrying an older
`created_at` than a listed message breaks the order, since the handler
appends without re-sorting. -/
theorem message_sort_amended (db : DB) (chatId : String) (ps : List Message)
    (hps : ps.Sorted (fun a b : Message => a.created_at ≤ b.created_at))
    (hge : ∀ m ∈ messagesAsc db chatId, ∀ p ∈ ps, m.created_at ≤ p.created_at) :
    (messagesAsc db chatId).Sorted
      (fun a b : Message => a.created_at ≤ b.created_at) ∧
    (ChatsStore.applyMessagePushes (messagesAsc db chatId) ps).Sorted
      (fun a b : Message => a.created_at ≤ b.created_at) := by
  refine ⟨messagesAsc_sorted db chatId, ?_⟩
  rw [applyMessagePushes_eq_append]
  exact List.pairwise_append.2 ⟨messagesAsc_sorted db chatId, hps, hge⟩

/-- Witness for `message_sort_amended`: fetching chat "2" of
`dbOneMessage` and appending one newer pushed message keeps the list
sorted. -/
theorem message_sort_amended_witness :
    (ChatsStore.applyMessagePushes (messagesAsc dbOneMessage "2") [msgAt6]).Sorted
      (fun a b : Message => a.created_at ≤ b.created_at) :=
  (message_sort_amended dbOneMessage "2" [msgAt6] (by decide) (by
    intro m hm p hp
    have hfetch : messagesAsc dbOneMessage "2" = [msgAt5] := by
      simp [messagesAsc, dbOneMessage, msgAt5]
    rw [hfetch] at hm
    simp only [List.mem_singleton] at hm hp
    subst hm
    subst hp
    decide)).2

/-- C3: the stale-fetch race at the failing input `raceEvents`. After the
selection switches from chat "2" to chat "4" and chat "2"'s fetch resolves
last, the code leaves chat "2"'s message in the message list even though
chat "4" is the selected chat — the fetch-completion handler does not
check which chat it was started for. -/
theorem stale_fetch_overwrites_messages :
    (ChatsStore.runView { currentChat := none, messages := [] } raceEvents).currentChat =
      some testDemo17Chat ∧
    demoMessage ∈
      (ChatsStore.runView { currentChat := none, messages := [] } raceEvents).messages ∧
    demoMessage.chat_id ≠ testDemo17Chat.id := by
  decide

theorem messagesDesc_perm (db : DB) (chatId : String) :
    (messagesDesc db chatId).Perm
      (db.messages.filter (fun m => decide (m.chat_id = chatId))) :=
  List.mergeSort_perm _ _

theorem lastMessageFor_spec (db : DB) (chatId : String) :
    (lastMessageFor db chatId = none ↔ ∀ m ∈ db.messages, m.chat_id ≠ chatId) ∧
    (∀ m, lastMessageFor db chatId = some m → m ∈ db.messages ∧ m.chat_id = chatId ∧
      ∀ m' ∈ db.messages, m'.chat_id = chatId → m'.created_at ≤ m.created_at) := by
  constructor
  · constructor
    · intro hnone m hm hc
      have hnil : messagesDesc db chatId = [] := by
        cases h : messagesDesc db chatId with
        | nil => rfl
        | cons a t => rw [lastMessageFor, h] at hnone; cases hnone
      have hfil : db.messages.filter (fun m => decide (m.chat_id = chatId)) = [] := by
        have hp := messagesDesc_perm db chatId
        rw [hnil] at hp
        exact (List.Perm.nil_eq hp).symm
      have hmf : m ∈ db.messages.filter (fun m => decide (m.chat_id = chatId)) :=
        List.mem_filter.2 ⟨hm, by simp [hc]⟩
      rw [hfil] at hmf
      cases hmf
    · intro h
      have hfil : db.messages.filter (fun m => decide (m.chat_id = chatId)) = [] := by
        rw [List.filter_eq_nil_iff]
        intro a ha
        simpa using h a ha
      have hnil : messagesDesc db chatId = [] := by
        have hp := messagesDesc_perm db chatId
        rw [hfil] at hp
        exact List.Perm.eq_nil hp
      simp [lastMessageFor, hnil]
  · intro m hm
    cases h : messagesDesc db chatId with
    | nil => rw [lastMessageFor, h] at hm; cases hm
    | cons a t =>
      rw [lastMessageFor, h] at hm
      have ham : a = m := by simpa using hm
      subst ham
      have hp := messagesDesc_perm db chatId
      rw [h] at hp
      have hmem : a ∈ db.messages.filter (fun x => decide (x.chat_id = chatId)) :=
        hp.mem_iff.1 (List.mem_cons_self a t)
      have hmm := List.mem_filter.1 hmem
      refine ⟨hmm.1, by simpa using hmm.2, ?_⟩
      intro m' hm' hc'
      have hm'f : m' ∈ a :: t :=
        hp.mem_iff.2 (List.mem_filter.2 ⟨hm', by simp [hc']⟩)
      rcases List.mem_cons.1 hm'f with rfl | hmt
      · exact le_refl _
      · have hs := messagesDesc_sorted db chatId
        rw [h] at hs
        exact List.rel_of_sorted_cons hs m' hmt

/-- C5: `fetchUserChats(userId)` first looks up the user's memberships and
returns `ok []` when there are none; in general it returns exactly the
chats whose id is in the membership set, ordered by `updated_at`
descending, each carrying as `last_message` its most recent message (none
when the chat has no messages). -/
theorem fetchUserChats_spec (db : DB) (userId : String) :
    (db.chat_members.filter (fun mb => decide (mb.user_id = userId)) = [] →
      Gateway.Strict.fetchUserChats (.live db) userId = .ok []) ∧
    ∃ l, Gateway.Strict.fetchUserChats (.live db) userId = .ok l ∧
      l.Sorted (fun a b : Chat => b.updated_at ≤ a.updated_at) ∧
      (∀ c ∈ l, ∃ mb ∈ db.chat_members, mb.user_id = userId ∧ mb.chat_id = c.id) ∧
      (∀ row ∈ db.chats,
        (∃ mb ∈ db.chat_members, mb.user_id = userId ∧ mb.chat_id = row.id) →
        ∃ c ∈ l, c.toChatRow = row) ∧
      (∀ c ∈ l,
        (c.last_message = none ↔ ∀ m ∈ db.messages, m.chat_id ≠ c.id) ∧
        (∀ m, c.last_message = some m → m ∈ db.messages ∧ m.chat_id = c.id ∧
          ∀ m' ∈ db.messages, m'.chat_id = c.id → m'.created_at ≤ m.created_at)) := by
  by_cases hcm : db.chat_members.filter (fun mb => decide (mb.user_id = userId)) = []
  · refine ⟨fun _ => by simp [Gateway.Strict.fetchUserChats, hcm], [], ?_, by simp,
      by simp, ?_, by simp⟩
    · simp [Gateway.Strict.fetchUserChats, hcm]
    · rintro row _ ⟨mb, hmb, hu, _⟩
      exfalso
      have : mb ∈ db.chat_members.filter (fun mb => decide (mb.user_id = userId)) :=
        List.mem_filter.2 ⟨hmb, by simp [hu]⟩
      rw [hcm] at this
      cases this
  · have heq : Gateway.Strict.fetchUserChats (.live db) userId =
        .ok (((db.chats.filter (fun c =>
            c.id ∈ (db.chat_members.filter
              (fun mb => decide (mb.user_id = userId))).map
              (fun mb => mb.chat_id))).mergeSort
            (fun a b => decide (b.updated_at ≤ a.updated_at))).map
          (fun row => { toChatRow := row, last_message := lastMessageFor db row.id })) := by
      simp only [Gateway.Strict.fetchUserChats]
      rw [if_neg hcm]
    refine ⟨fun h => absurd h hcm, _, heq, ?_, ?_, ?_, ?_⟩
    · have hrows := @List.sorted_mergeSort ChatRow
        (fun a b => decide (b.updated_at ≤ a.updated_at))
        (fun a b c hab hbc => by
          simp only [decide_eq_true_eq] at hab hbc ⊢
          exact le_trans hbc hab)
        (fun a b => by
          simp only [Bool.or_eq_true, decide_eq_true_eq]
          exact le_total b.updated_at a.updated_at)
        (db.chats.filter (fun c =>
          c.id ∈ (db.chat_members.filter
            (fun mb => decide (mb.user_id = userId))).map (fun mb => mb.chat_id)))
      refine List.Pairwise.map _ ?_ hrows
      intro a b hab
      simpa using hab
    · intro c hc
      obtain ⟨row, hrow, rfl⟩ := List.mem_map.1 hc
      have hrow' : row ∈ db.chats.filter (fun c =>
          c.id ∈ (db.chat_members.filter
            (fun mb => decide (mb.user_id = userId))).map (fun mb => mb.chat_id)) :=
        (List.mergeSort_perm _ _).mem_iff.1 hrow
      have hpred := (List.mem_filter.1 hrow').2
      have hid : row.id ∈ (db.chat_members.filter
          (fun mb => decide (mb.user_id = userId))).map (fun mb => mb.chat_id) := by
        simpa using hpred
      obtain ⟨mb, hmb, hcid⟩ := List.mem_map.1 hid
      have hmb' := List.mem_filter.1 hmb
      exact ⟨mb, hmb'.1, by simpa using hmb'.2, hcid⟩
    · rintro row hrow ⟨mb, hmb, hu, hcid⟩
      have hid : row.id ∈ (db.chat_members.filter
          (fun mb => decide (mb.user_id = userId))).map (fun mb => mb.chat_id) :=
        List.mem_map.2 ⟨mb, List.mem_filter.2 ⟨hmb, by simp [hu]⟩, hcid⟩
      have hrow' : row ∈ db.chats.filter (fun c =>
          c.id ∈ (db.chat_members.filter
            (fun mb => decide (mb.user_id = userId))).map (fun mb => mb.chat_id)) :=
        List.mem_filter.2 ⟨hrow, by simpa using hid⟩
      exact ⟨_, List.mem_map.2 ⟨row, (List.mergeSort_perm _ _).mem_iff.2 hrow', rfl⟩, rfl⟩
    · intro c hc
      obtain ⟨row, _, rfl⟩ := List.mem_map.1 hc
      exact lastMessageFor_spec db row.id

/-- Witness for `fetchUserChats_spec`: the user "99" has no memberships in
`demoDB`, and `fetchUserChats` returns the empty sequence, not an error. -/
theorem fetchUserChats_spec_witness :
    Gateway.Strict.fetchUserChats (Backend.live demoDB) "99" =
      Except.ok ([] : List Chat) :=
  (fetchUserChats_spec demoDB "99").1 (by decide)

/-- C9: applying the auth-session-change notification carrying the same
session value twice in succession yields the same Session Manager state
(session, user, loading) as applying it once. -/
theorem onAuthStateChange_idempotent (st : Auth.AuthState) (s : Option Auth.Session) :
    Auth.onAuthStateChange (Auth.onAuthStateChange st s) s =
      Auth.onAuthStateChange st s :=
  rfl
